import Mathlib

/-!
Verification of the LangGraph user-state agent (`src/langgraph_agent/graph.py`
and `src/langgraph_agent/db_utils.py`).

The core is shallow-embedded: messages are an inductive type mirroring the
LangChain message classes used by the source; the Durable Store (a sqlite
table with `user_id` as primary key) is an association list with unique-key
insert-or-replace semantics; each LangGraph node function is embedded as a
Lean function from agent state to agent state, folded together with the
state-merge the LangGraph reducer performs on the node's returned partial
update (`messages` merges by list concatenation, the other fields replace).
Fallible Python code (negative indexing into too-short lists, attribute
access on message classes lacking the attribute, dictionary lookup of a
missing key) is embedded with `Except String`.

A key point of fidelity: in `update_tool_call_with_user_id` the source does
`tool_call = last_message.tool_calls[0]` and then mutates
`tool_call['args']['user_id']` in place. `tool_call` aliases the dictionary
stored inside the message that is already in the state's message list, so the
in-place write enriches the record already in the sequence; the freshly
constructed `AIMessage` is then *appended* by the custom reducer
`lambda x, y: x + y if y else x` (plain concatenation, no id-based
replacement). The embedding reproduces both effects.
-/

namespace LGAgent

/-- A Python string-keyed dictionary with string values, as an association
list in insertion order. -/
abbrev Dict : Type := List (String × String)

/-- Python `d[k]` as a total lookup: the value at the first (in a `dict`,
only) binding of `k`, or `none` (the source would raise `KeyError`). -/
def dictGet (d : Dict) (k : String) : Option String :=
  (d.find? (fun p => p.1 == k)).map (fun p => p.2)

/-- Python `d[k] = v`: replace the value in place if the key is bound
(position preserved), otherwise append the new binding at the end. -/
def dictInsert (d : Dict) (k v : String) : Dict :=
  if d.any (fun p => p.1 == k) then
    d.map (fun p => if p.1 == k then (k, v) else p)
  else
    d ++ [(k, v)]

/-- A LangChain tool call record: `{"name": ..., "args": ..., "id": ...}`. -/
structure ToolCall where
  name : String
  args : Dict
  call_id : String
deriving DecidableEq

/-- The message classes the source uses: `HumanMessage`, `SystemMessage`,
`AIMessage` (the only class carrying `tool_calls`), `ToolMessage`. -/
inductive Message where
  | human (content : String)
  | system (content : String)
  | ai (content : String) (tool_calls : List ToolCall) (id : String)
  | toolResult (content : String) (tool_call_id : String)
deriving DecidableEq

/-- `AgentState` from `graph.py`: `messages`, `user_name`, `user_id`. The
running value of `user_name` can be Python `None` (seeded from a missed
database read), hence `Option String`. -/
structure AgentState where
  messages : List Message
  user_name : Option String
  user_id : String
deriving DecidableEq

/-- The Durable Store: the sqlite `users` table of `db_utils.py`,
`user_id TEXT PRIMARY KEY, name TEXT`, as an association list whose keys
are unique by construction of the only write path. -/
abbrev Db : Type := List (String × String)

/-- `get_user_name` from `db_utils.py`: `SELECT name FROM users WHERE
user_id = ?`; `None` when no row exists (absence is not an error). -/
def get_user_name (db : Db) (user_id : String) : Option String :=
  (db.find? (fun r => r.1 == user_id)).map (fun r => r.2)

/-- `persist_user_name_to_db` from `db_utils.py`: `INSERT OR REPLACE INTO
users (user_id, name) VALUES (?, ?)` — the primary key makes this replace
the existing row for `user_id`, if any, else insert a fresh one. -/
def persist_user_name_to_db (db : Db) (user_id name : String) : Db :=
  if db.any (fun r => r.1 == user_id) then
    db.map (fun r => if r.1 == user_id then (user_id, name) else r)
  else
    db ++ [(user_id, name)]

/-- `remember_user_name_external` from `graph.py`: persist the name for the
user, return the confirmation text. -/
def remember_user_name_external (db : Db) (user_id name : String) :
    Db × String :=
  (persist_user_name_to_db db user_id name,
   "OK, I've saved " ++ name ++ " to your main profile.")

/-- `get_system_prompt` from `graph.py`. The branch condition is Python
truthiness of `name`: `None` and the empty string both take the
unknown-name branch. -/
def get_system_prompt (name : Option String) : String :=
  let system_prompt :=
    "You are a helpful assistant. " ++
    "Your goal is to learn about the user's name and use it in the converation."
  match name with
  | some n =>
    if n ≠ "" then
      system_prompt ++ " You know the user's name is " ++ n ++
        ". Address them by their name " ++ n
    else
      system_prompt ++ unknownNameInstruction
  | none => system_prompt ++ unknownNameInstruction
where
  /-- The unknown-name branch text appended by `get_system_prompt`. -/
  unknownNameInstruction : String :=
    " You do not know the user's name yet. " ++
    "\n\n**CRITICAL INSTRUCTION:** When the user provides their name " ++
    "(e.g., 'Hi, my name is Bob'), " ++
    "you MUST immediately call the 'remember_user_name_external' tool " ++
    "with the exact name they provided. This is your highest priority " ++
    "task when a name is given. Do not answer their other queries " ++
    "in the same turn; just call the tool."

/-- `generate_agent_state` from `graph.py`: seed a fresh state with the one
human message, the Durable Store's name for `user_id` (or `None`), and the
given `user_id`. -/
def generate_agent_state (db : Db) (user_id user_message : String) :
    AgentState :=
  { messages := [Message.human user_message]
    user_name := get_user_name db user_id
    user_id := user_id }

/-- `call_model` from `graph.py`, folded with the LangGraph merge of its
return value `{"messages": [response]}` (the reducer concatenates).
The Reasoning Oracle (`agent_runnable.invoke`) is external; it is passed in
as a function from the assembled message list — system prompt prepended to
the state's messages — to the reply message. `user_name` and `user_id` are
not part of the returned update, so the merge leaves them unchanged. -/
def call_model (oracle : List Message → Message) (s : AgentState) :
    AgentState :=
  let all_messages := Message.system (get_system_prompt s.user_name) :: s.messages
  { s with messages := s.messages ++ [oracle all_messages] }

/-- `update_tool_call_with_user_id` from `graph.py`, folded with the merge of
its returned update. `state["messages"][-1]` raises `IndexError` on an empty
list, and `.tool_calls` raises `AttributeError` on a non-`AIMessage`, hence
`Except`. When the last message carries tool calls: the source mutates
`tool_calls[0]['args']` in place through the alias `tool_call`, which
rewrites the record already in the sequence, then appends (via the
concatenation reducer) a fresh `AIMessage` with the same `content` and `id`
carrying just that enriched tool call. When it carries none, the node
returns `{}` and the state is unchanged. -/
def update_tool_call_with_user_id (s : AgentState) :
    Except String AgentState :=
  match s.messages.getLast? with
  | none => Except.error "IndexError: messages is empty"
  | some (Message.ai content tool_calls id) =>
    match tool_calls with
    | [] => Except.ok s
    | tc :: rest =>
      let tc' : ToolCall := { tc with args := dictInsert tc.args "user_id" s.user_id }
      let mutated := s.messages.dropLast ++ [Message.ai content (tc' :: rest) id]
      let new_message := Message.ai content [tc'] id
      Except.ok { s with messages := mutated ++ [new_message] }
  | some _ => Except.error "AttributeError: message has no attribute tool_calls"

/-- `update_user_name_in_state` from `graph.py`, folded with the merge of its
returned update (`{"user_name": name}` replaces that field; `{}` leaves the
state unchanged). `state["messages"][-2]` raises `IndexError` when fewer
than two messages exist; `.tool_calls` raises `AttributeError` on a
non-`AIMessage`; `tool_call['args']['name']` raises `KeyError` when the
argument is absent. -/
def update_user_name_in_state (s : AgentState) : Except String AgentState :=
  if s.messages.length < 2 then
    Except.error "IndexError: fewer than two messages"
  else
    match s.messages[s.messages.length - 2]? with
    | some (Message.ai _ (tc :: _) _) =>
      if tc.name = "remember_user_name_external" then
        match dictGet tc.args "name" with
        | some name => Except.ok { s with user_name := some name }
        | none => Except.error "KeyError: name"
      else Except.ok s
    | some (Message.ai _ [] _) => Except.ok s
    | some _ => Except.error "AttributeError: message has no attribute tool_calls"
    | none => Except.error "IndexError: fewer than two messages"

/-- Modelled from the spec: the EXECUTE node. The source's `tool_executor =
ToolNode(tools)` delegates to the external LangGraph prebuilt `ToolNode`,
whose code is not in this repository; per the spec it invokes the Tool
Interface with the enriched arguments of the latest assistant record's tool
call and appends its return value as a tool-result record, and a Tool
Interface failure is surfaced to the caller (the turn fails). The Tool
Interface itself (the durable put wrapped by `remember_user_name_external`)
is passed in as the fallible `tool` parameter so failure can be modelled. -/
def tool_executor (tool : Db → String → String → Except String (Db × String))
    (db : Db) (s : AgentState) : Except String (Db × AgentState) :=
  match s.messages.getLast? with
  | some (Message.ai _ (tc :: _) _) =>
    if tc.name = "remember_user_name_external" then
      match dictGet tc.args "user_id", dictGet tc.args "name" with
      | some uid, some name =>
        match tool db uid name with
        | Except.ok (db', confirmation) =>
          Except.ok (db',
            { s with messages := s.messages ++ [Message.toolResult confirmation tc.call_id] })
        | Except.error e => Except.error e
      | _, _ => Except.error "ValidationError: missing tool argument"
    else Except.error ("Unknown tool: " ++ tc.name)
  | _ => Except.error "ToolNode: last message carries no tool calls"

/-- The successful Tool Interface: `remember_user_name_external` backed by
the pure embedding of `persist_user_name_to_db`. -/
def pureTool (db : Db) (user_id name : String) : Except String (Db × String) :=
  Except.ok (remember_user_name_external db user_id name)

/-- The graph's nodes, as added by `builder.add_node`, plus the `END`
terminal. -/
inductive Node where
  | agent
  | update_tool_call
  | tools
  | update_state_with_name
  | done
deriving DecidableEq

/-- `tools_condition` composed with the conditional-edge mapping
`{"tools": "update_tool_call", END: END}` from `builder.add_conditional_edges`:
if the latest message is an assistant record carrying at least one tool
call, continue at the `update_tool_call` node, otherwise `END`. -/
def tools_condition (s : AgentState) : Node :=
  match s.messages.getLast? with
  | some (Message.ai _ (_ :: _) _) => Node.update_tool_call
  | _ => Node.done

/-- A point of the running system: the current node about to execute (or
`done`), the Durable Store, and the Session State. -/
structure World where
  node : Node
  db : Db
  state : AgentState
deriving DecidableEq

/-- One super-step of the compiled graph: run the current node's function,
merge its update, and follow the out-edge (`agent`'s conditional edge, the
unconditional edges `update_tool_call → tools`, `tools →
update_state_with_name`, `update_state_with_name → agent`). `done` is
absorbing. -/
def graphStep (oracle : List Message → Message)
    (tool : Db → String → String → Except String (Db × String))
    (w : World) : Except String World :=
  match w.node with
  | Node.agent =>
    let s' := call_model oracle w.state
    Except.ok { node := tools_condition s', db := w.db, state := s' }
  | Node.update_tool_call =>
    (update_tool_call_with_user_id w.state).map
      (fun s' => { node := Node.tools, db := w.db, state := s' })
  | Node.tools =>
    (tool_executor tool w.db w.state).map
      (fun p => { node := Node.update_state_with_name, db := p.1, state := p.2 })
  | Node.update_state_with_name =>
    (update_user_name_in_state w.state).map
      (fun s' => { node := Node.agent, db := w.db, state := s' })
  | Node.done => Except.ok w

/-- `n` super-steps of the compiled graph. -/
def iterGraph (oracle : List Message → Message)
    (tool : Db → String → String → Except String (Db × String))
    (n : Nat) (w : World) : Except String World :=
  match n with
  | 0 => Except.ok w
  | n + 1 => (iterGraph oracle tool n w).bind (graphStep oracle tool)

/-- The tool calls a message carries, as the routing predicate
`tools_condition` sees them: only assistant records carry any. -/
def toolCallsOf : Message → List ToolCall
  | Message.ai _ tcs _ => tcs
  | _ => []

/-! ## Helper lemmas -/

theorem dictGet_dictInsert_self (d : Dict) (k v : String) :
    dictGet (dictInsert d k v) k = some v := by
  unfold dictInsert
  by_cases h : d.any (fun p => p.1 == k)
  · rw [if_pos h]
    induction d with
    | nil => simp at h
    | cons q rest ih =>
      by_cases hq : q.1 == k
      · simp [dictGet, List.find?, hq]
      · simp only [List.any_cons, hq, Bool.false_or] at h
        simpa [dictGet, List.find?, hq] using ih h
  · rw [if_neg h]
    induction d with
    | nil => simp [dictGet, List.find?]
    | cons q rest ih =>
      simp only [List.any_cons, Bool.or_eq_true, not_or] at h
      have hq : (q.1 == k) = false := by
        cases hqk : q.1 == k
        · rfl
        · exact absurd hqk h.1
      simp only [List.cons_append, dictGet, List.find?, hq]
      exact ih (by simpa using h.2)

theorem get_user_name_persist_self (db : Db) (uid nm : String) :
    get_user_name (persist_user_name_to_db db uid nm) uid = some nm :=
  dictGet_dictInsert_self db uid nm

/-- A one-message state whose assistant record carries one tool call with no
arguments yet; concrete input for the counterexamples about ENRICH. -/
def sampleToolCallState : AgentState :=
  { messages := [Message.ai ""
      [{ name := "remember_user_name_external", args := [], call_id := "call_1" }] "m1"]
    user_name := none
    user_id := "u1" }

/-! ## The claims -/

/-- C1: for every session state whose latest message carries at least one
tool call, the ENRICH step (`update_tool_call_with_user_id`) succeeds and
yields a state whose latest message's first tool call maps `user_id` to the
session state's `user_id`, whatever the oracle originally supplied under
that key. -/
theorem enrich_injects_user_id (s : AgentState) (c : String) (tc : ToolCall)
    (rest : List ToolCall) (i : String)
    (h : s.messages.getLast? = some (Message.ai c (tc :: rest) i)) :
    ∃ s', update_tool_call_with_user_id s = Except.ok s' ∧
      ∃ c' tc' tcs' i',
        s'.messages.getLast? = some (Message.ai c' (tc' :: tcs') i') ∧
        dictGet tc'.args "user_id" = some s.user_id := by
  have hres : update_tool_call_with_user_id s = Except.ok { s with messages :=
      (s.messages.dropLast ++
        [Message.ai c ({ tc with args := dictInsert tc.args "user_id" s.user_id } :: rest) i]) ++
        [Message.ai c [{ tc with args := dictInsert tc.args "user_id" s.user_id }] i] } := by
    simp only [update_tool_call_with_user_id, h]
  refine ⟨_, hres, c,
    { tc with args := dictInsert tc.args "user_id" s.user_id }, [], i, ?_, ?_⟩
  · simp
  · exact dictGet_dictInsert_self tc.args "user_id" s.user_id

/-- Witness for C1 at a concrete state whose oracle-supplied tool call
already held a (wrong) `user_id`. -/
theorem enrich_injects_user_id_witness :
    ∃ s', update_tool_call_with_user_id
        { messages := [Message.ai "ok"
            [{ name := "remember_user_name_external",
               args := [("user_id", "oracle_guess"), ("name", "Bob")],
               call_id := "c9" }] "m7"]
          user_name := none
          user_id := "real_user" } = Except.ok s' ∧
      ∃ c' tc' tcs' i',
        s'.messages.getLast? = some (Message.ai c' (tc' :: tcs') i') ∧
        dictGet tc'.args "user_id" = some "real_user" :=
  enrich_injects_user_id _ "ok"
    { name := "remember_user_name_external",
      args := [("user_id", "oracle_guess"), ("name", "Bob")], call_id := "c9" }
    [] "m7" rfl

/-- C2 counterexample: at a concrete one-message state, the ok result of the
ENRICH step has two messages where the input had one, so the message count
is not unchanged — the custom concatenation reducer appends the enriched
copy instead of replacing the original record. -/
theorem enrich_message_count_cex :
    (update_tool_call_with_user_id sampleToolCallState).map
        (fun s' => s'.messages.length) = Except.ok 2 ∧
    sampleToolCallState.messages.length = 1 :=
  ⟨rfl, rfl⟩

/-- C2 amended: the ENRICH step enriches the latest assistant record in
place (the in-place dictionary write through the alias) and in addition
appends a fresh enriched copy carrying the same id, so no un-enriched copy
of that record remains but the message count grows by exactly one rather
than staying unchanged. -/
theorem enrich_appends_enriched_copy (s : AgentState) (c : String)
    (tc : ToolCall) (rest : List ToolCall) (i : String)
    (h : s.messages.getLast? = some (Message.ai c (tc :: rest) i)) :
    update_tool_call_with_user_id s = Except.ok { s with messages :=
      s.messages.dropLast ++
        [Message.ai c ({ tc with args := dictInsert tc.args "user_id" s.user_id } :: rest) i,
         Message.ai c [{ tc with args := dictInsert tc.args "user_id" s.user_id }] i] } ∧
    ∀ s', update_tool_call_with_user_id s = Except.ok s' →
      s'.messages.length = s.messages.length + 1 ∧
      s'.messages.getLast? = some (Message.ai c
        [{ tc with args := dictInsert tc.args "user_id" s.user_id }] i) := by
  have hne : s.messages ≠ [] := by
    intro hnil
    rw [hnil] at h
    exact Option.noConfusion h
  have hres : update_tool_call_with_user_id s = Except.ok { s with messages :=
      s.messages.dropLast ++
        [Message.ai c ({ tc with args := dictInsert tc.args "user_id" s.user_id } :: rest) i,
         Message.ai c [{ tc with args := dictInsert tc.args "user_id" s.user_id }] i] } := by
    simp only [update_tool_call_with_user_id, h]
    congr 1
    simp
  refine ⟨hres, fun s' h' => ?_⟩
  rw [hres] at h'
  cases h'
  constructor
  · simp only [List.length_append, List.length_dropLast, List.length_cons,
      List.length_nil]
    have : 0 < s.messages.length := List.length_pos.mpr hne
    omega
  · simp

/-- C2 witness: the amended theorem applied at the concrete one-message
state of the counterexample. -/
theorem enrich_appends_enriched_copy_witness :
    update_tool_call_with_user_id sampleToolCallState = Except.ok
      { sampleToolCallState with messages :=
        sampleToolCallState.messages.dropLast ++
          [Message.ai ""
            [{ name := "remember_user_name_external",
               args := [("user_id", "u1")], call_id := "call_1" }] "m1",
           Message.ai ""
            [{ name := "remember_user_name_external",
               args := [("user_id", "u1")], call_id := "call_1" }] "m1"] } :=
  (enrich_appends_enriched_copy sampleToolCallState ""
    { name := "remember_user_name_external", args := [], call_id := "call_1" }
    [] "m1" rfl).1

/-- C8: directive construction is a deterministic pure function of
`user_name` with exactly two branches. Calling it twice yields identical
text; a known (truthy) name produces the directive stating the name and
instructing the oracle to address the user by it; an unknown name produces
the directive instructing the oracle to call the remember-name tool with
the literal provided name before answering anything else in the turn. -/
theorem get_system_prompt_branches :
    (∀ n : Option String, get_system_prompt n = get_system_prompt n) ∧
    (∀ nm : String, nm ≠ "" →
      get_system_prompt (some nm) =
        "You are a helpful assistant. " ++
        "Your goal is to learn about the user's name and use it in the converation." ++
        " You know the user's name is " ++ nm ++
        ". Address them by their name " ++ nm) ∧
    (get_system_prompt none =
        "You are a helpful assistant. " ++
        "Your goal is to learn about the user's name and use it in the converation." ++
        " You do not know the user's name yet. " ++
        "\n\n**CRITICAL INSTRUCTION:** When the user provides their name " ++
        "(e.g., 'Hi, my name is Bob'), " ++
        "you MUST immediately call the 'remember_user_name_external' tool " ++
        "with the exact name they provided. This is your highest priority " ++
        "task when a name is given. Do not answer their other queries " ++
        "in the same turn; just call the tool.") := by
  refine ⟨fun _ => rfl, fun nm hnm => ?_, rfl⟩
  simp only [get_system_prompt, if_pos hnm]

/-- C10: directive construction branches on the truthiness of `user_name`,
not on its presence: the empty-string name takes the unknown-name branch,
identically to `None`. -/
theorem get_system_prompt_empty_name :
    get_system_prompt (some "") = get_system_prompt none ∧
    get_system_prompt (some "") =
        "You are a helpful assistant. " ++
        "Your goal is to learn about the user's name and use it in the converation." ++
        " You do not know the user's name yet. " ++
        "\n\n**CRITICAL INSTRUCTION:** When the user provides their name " ++
        "(e.g., 'Hi, my name is Bob'), " ++
        "you MUST immediately call the 'remember_user_name_external' tool " ++
        "with the exact name they provided. This is your highest priority " ++
        "task when a name is given. Do not answer their other queries " ++
        "in the same turn; just call the tool." :=
  ⟨rfl, rfl⟩

/-- C9: the Durable Store round trip. A successful put makes a subsequent
get for the same key return the put name; puts to the same key are
last-write-wins; and in the concrete "John" turn — the state whose
assistant record carries the remember-name tool call with argument
`name = "John"` for `user_id = "user_John"`, run through
ENRICH, EXECUTE and SYNC on an empty store — the Durable Store afterwards
returns `"John"` for `"user_John"` and the Session State's `user_name`
equals `"John"`. -/
theorem durable_store_round_trip :
    (∀ (db : Db) (uid nm : String),
      get_user_name (persist_user_name_to_db db uid nm) uid = some nm) ∧
    (∀ (db : Db) (uid a b : String),
      get_user_name
        (persist_user_name_to_db (persist_user_name_to_db db uid a) uid b)
        uid = some b) ∧
    ((iterGraph (fun _ => Message.ai "" [] "r") pureTool 3
        { node := Node.update_tool_call
          db := []
          state :=
            { messages := [Message.human "Hi, my name is John.",
                Message.ai ""
                  [{ name := "remember_user_name_external",
                     args := [("name", "John")], call_id := "call_1" }] "ai_1"]
              user_name := none
              user_id := "user_John" } }).map
      (fun w => (get_user_name w.db "user_John", w.state.user_name,
        w.node == Node.agent)) =
      Except.ok (some "John", some "John", true)) :=
  ⟨fun db uid nm => get_user_name_persist_self db uid nm,
   fun _ uid _ b => get_user_name_persist_self _ uid b,
   rfl⟩

/-- C4: bootstrap. For every store, user identifier and inbound message,
`generate_agent_state` returns a state whose `messages` is exactly one human
record with the message, whose `user_id` is the given identifier, and whose
`user_name` is the Durable Store's stored name when a record exists and
`None` when none exists (absence is not an error). -/
theorem generate_agent_state_bootstrap (db : Db) (user_id user_message : String) :
    (generate_agent_state db user_id user_message).messages =
        [Message.human user_message] ∧
    (generate_agent_state db user_id user_message).user_id = user_id ∧
    (∀ nm, get_user_name db user_id = some nm →
      (generate_agent_state db user_id user_message).user_name = some nm) ∧
    (get_user_name db user_id = none →
      (generate_agent_state db user_id user_message).user_name = none) :=
  ⟨rfl, rfl, fun _ h => h, fun h => h⟩

/-- A two-message state with no assistant record; concrete input for the
counterexample about SYNC. -/
def sampleHumanState : AgentState :=
  { messages := [Message.human "a", Message.human "b"]
    user_name := none
    user_id := "u" }

/-- A two-message state as SYNC sees one after a remember-name tool run:
the assistant record with the tool call, then the tool result. -/
def sampleSyncState : AgentState :=
  { messages := [Message.ai ""
      [{ name := "remember_user_name_external",
         args := [("name", "Ann"), ("user_id", "u1")], call_id := "c1" }] "m1",
      Message.toolResult "OK, I've saved Ann to your main profile." "c1"]
    user_name := none
    user_id := "u1" }

/-- C3 counterexample: at a concrete two-message state whose second-to-last
message carries no tool call (it is a human record), the claim says SYNC
returns the state unchanged, but `update_user_name_in_state` accesses
`.tool_calls` on a message class that has no such attribute and raises
instead of returning the state. -/
theorem sync_nonassistant_cex :
    update_user_name_in_state sampleHumanState ≠ Except.ok sampleHumanState := by
  intro h
  have h' : (Except.error "AttributeError: message has no attribute tool_calls"
      : Except String AgentState) = Except.ok sampleHumanState := h
  exact Except.noConfusion h'

/-- C3 amended: for every session state with at least two messages whose
second-to-last message is an assistant record, SYNC
(`update_user_name_in_state`) sets the state's `user_name` to the `name`
argument of that record's first tool call when that tool call is the
remember-name tool and carries a `name` argument, and returns the state
unchanged when the first tool call is another tool or the record carries no
tool calls; and the SYNC node never writes the Durable Store. -/
theorem sync_updates_user_name (s : AgentState) (c : String)
    (tcs : List ToolCall) (i : String)
    (h2 : 2 ≤ s.messages.length)
    (h : s.messages[s.messages.length - 2]? = some (Message.ai c tcs i)) :
    (∀ tc rest nm, tcs = tc :: rest →
      tc.name = "remember_user_name_external" →
      dictGet tc.args "name" = some nm →
      update_user_name_in_state s = Except.ok { s with user_name := some nm }) ∧
    (∀ tc rest, tcs = tc :: rest →
      tc.name ≠ "remember_user_name_external" →
      update_user_name_in_state s = Except.ok s) ∧
    (tcs = [] → update_user_name_in_state s = Except.ok s) ∧
    (∀ oracle tool (db : Db) w',
      graphStep oracle tool { node := Node.update_state_with_name, db := db, state := s }
        = Except.ok w' → w'.db = db) := by
  have hn2 : ¬ s.messages.length < 2 := by omega
  refine ⟨?_, ?_, ?_, ?_⟩
  · intro tc rest nm htcs hname harg
    subst htcs
    simp only [update_user_name_in_state, if_neg hn2, h, if_pos hname, harg]
  · intro tc rest htcs hname
    subst htcs
    simp only [update_user_name_in_state, if_neg hn2, h, if_neg hname]
  · intro htcs
    subst htcs
    simp only [update_user_name_in_state, if_neg hn2, h]
  · intro oracle tool db w' hw
    simp only [graphStep] at hw
    cases hu : update_user_name_in_state s with
    | error e => rw [hu] at hw; exact Except.noConfusion hw
    | ok s' =>
      rw [hu] at hw
      cases hw
      rfl

/-- C3 witness: the amended theorem applied at the concrete post-EXECUTE
state. -/
theorem sync_updates_user_name_witness :
    update_user_name_in_state sampleSyncState =
      Except.ok { sampleSyncState with user_name := some "Ann" } :=
  (sync_updates_user_name sampleSyncState ""
      [{ name := "remember_user_name_external",
         args := [("name", "Ann"), ("user_id", "u1")], call_id := "c1" }] "m1"
      (by decide) rfl).1
    { name := "remember_user_name_external",
      args := [("name", "Ann"), ("user_id", "u1")], call_id := "c1" }
    [] "Ann" rfl rfl rfl

theorem update_tool_call_cases (s s' : AgentState)
    (h : update_tool_call_with_user_id s = Except.ok s') :
    s'.user_id = s.user_id ∧ s'.user_name = s.user_name ∧
    (s' = s ∨ ∃ c tc rest i,
      s.messages.getLast? = some (Message.ai c (tc :: rest) i) ∧
      s'.messages = s.messages.dropLast ++
        [Message.ai c ({ tc with args := dictInsert tc.args "user_id" s.user_id } :: rest) i,
         Message.ai c [{ tc with args := dictInsert tc.args "user_id" s.user_id }] i]) := by
  cases hm : s.messages.getLast? with
  | none =>
    simp only [update_tool_call_with_user_id, hm] at h
    exact Except.noConfusion h
  | some m =>
    cases m with
    | ai c tcs i =>
      cases tcs with
      | nil =>
        simp only [update_tool_call_with_user_id, hm] at h
        cases h
        exact ⟨rfl, rfl, Or.inl rfl⟩
      | cons tc rest =>
        simp only [update_tool_call_with_user_id, hm] at h
        cases h
        refine ⟨rfl, rfl, Or.inr ⟨c, tc, rest, i, rfl, ?_⟩⟩
        simp
    | human cnt =>
      simp only [update_tool_call_with_user_id, hm] at h
      exact Except.noConfusion h
    | system cnt =>
      simp only [update_tool_call_with_user_id, hm] at h
      exact Except.noConfusion h
    | toolResult cnt tid =>
      simp only [update_tool_call_with_user_id, hm] at h
      exact Except.noConfusion h

theorem sync_ok_frame (s s' : AgentState)
    (h : update_user_name_in_state s = Except.ok s') :
    s'.messages = s.messages ∧ s'.user_id = s.user_id := by
  unfold update_user_name_in_state at h
  split at h
  · exact Except.noConfusion h
  · split at h
    · split at h
      · split at h
        · cases h; exact ⟨rfl, rfl⟩
        · exact Except.noConfusion h
      · cases h; exact ⟨rfl, rfl⟩
    · cases h; exact ⟨rfl, rfl⟩
    · exact Except.noConfusion h
    · exact Except.noConfusion h

theorem tool_executor_ok
    (tool : Db → String → String → Except String (Db × String))
    (db : Db) (s : AgentState) (db' : Db) (s' : AgentState)
    (h : tool_executor tool db s = Except.ok (db', s')) :
    s'.user_id = s.user_id ∧ s'.user_name = s.user_name ∧
    ∃ m, s'.messages = s.messages ++ [m] := by
  unfold tool_executor at h
  split at h
  · split at h
    · split at h
      · split at h
        · cases h
          exact ⟨rfl, rfl, _, rfl⟩
        · exact Except.noConfusion h
      · exact Except.noConfusion h
    · exact Except.noConfusion h
  · exact Except.noConfusion h

/-- C5 counterexample: a state-machine step at the ENRICH node, on a
concrete state whose tool call lacks a `user_id` argument, produces a
merged result of which the prior messages are not a prefix: the record at
the prior last position was rewritten in place by the argument injection. -/
theorem step_messages_prefix_cex :
    graphStep (fun _ => Message.ai "" [] "r") pureTool
      { node := Node.update_tool_call, db := [], state := sampleToolCallState } =
      Except.ok
        { node := Node.tools
          db := []
          state :=
            { messages := [Message.ai ""
                [{ name := "remember_user_name_external",
                   args := [("user_id", "u1")], call_id := "call_1" }] "m1",
                Message.ai ""
                [{ name := "remember_user_name_external",
                   args := [("user_id", "u1")], call_id := "call_1" }] "m1"]
              user_name := none
              user_id := "u1" } } ∧
    ¬ (sampleToolCallState.messages <+:
        [Message.ai ""
          [{ name := "remember_user_name_external",
             args := [("user_id", "u1")], call_id := "call_1" }] "m1",
         Message.ai ""
          [{ name := "remember_user_name_external",
             args := [("user_id", "u1")], call_id := "call_1" }] "m1"]) :=
  ⟨rfl, by decide⟩

/-- C5 amended: every step of the state machine preserves `user_id`; the
message count never decreases; `user_name` is mutated only by the SYNC
node (never by the reasoning node or the enrichment node); every step other
than ENRICH extends the message sequence, keeping the prior messages as a
prefix; the ENRICH step either leaves the state unchanged (no tool call
carried) or keeps all but the prior latest record as a prefix: that record
is rewritten in place with `user_id` injected into its first tool call and
an enriched copy of it is appended. -/
theorem graph_step_invariants (oracle : List Message → Message)
    (tool : Db → String → String → Except String (Db × String))
    (w w' : World) (h : graphStep oracle tool w = Except.ok w') :
    w'.state.user_id = w.state.user_id ∧
    w.state.messages.length ≤ w'.state.messages.length ∧
    (w.node ≠ Node.update_state_with_name →
      w'.state.user_name = w.state.user_name) ∧
    (w.node ≠ Node.update_tool_call →
      w.state.messages <+: w'.state.messages) ∧
    (w.node = Node.update_tool_call → w'.state = w.state ∨
      ∃ c tc rest i,
        w.state.messages.getLast? = some (Message.ai c (tc :: rest) i) ∧
        w'.state.messages = w.state.messages.dropLast ++
          [Message.ai c ({ tc with args := dictInsert tc.args "user_id" w.state.user_id } :: rest) i,
           Message.ai c [{ tc with args := dictInsert tc.args "user_id" w.state.user_id }] i]) := by
  cases hn : w.node with
  | agent =>
    simp only [graphStep, hn] at h
    cases h
    refine ⟨rfl, by simp [call_model], fun _ => rfl,
      fun _ => List.prefix_append _ _, fun hc => Node.noConfusion hc⟩
  | update_tool_call =>
    simp only [graphStep, hn] at h
    cases hu : update_tool_call_with_user_id w.state with
    | error e => rw [hu] at h; exact Except.noConfusion h
    | ok s1 =>
      rw [hu] at h
      cases h
      obtain ⟨hid, hname, hdisj⟩ := update_tool_call_cases _ _ hu
      refine ⟨hid, ?_, fun _ => hname, fun hc => absurd rfl hc, fun _ => hdisj⟩
      rcases hdisj with rfl | ⟨c, tc, rest, i, _, hmsg⟩
      · exact le_refl _
      · rw [hmsg]
        simp only [List.length_append, List.length_dropLast, List.length_cons,
          List.length_nil]
        omega
  | tools =>
    simp only [graphStep, hn] at h
    cases he : tool_executor tool w.db w.state with
    | error e => rw [he] at h; exact Except.noConfusion h
    | ok p =>
      rw [he] at h
      cases h
      obtain ⟨hid, hname, m, hmsg⟩ := tool_executor_ok _ _ _ _ _ he
      refine ⟨hid, ?_, fun _ => hname, fun _ => ?_, fun hc => Node.noConfusion hc⟩
      · rw [hmsg]; simp
      · rw [hmsg]; exact List.prefix_append _ _
  | update_state_with_name =>
    simp only [graphStep, hn] at h
    cases hu : update_user_name_in_state w.state with
    | error e => rw [hu] at h; exact Except.noConfusion h
    | ok s1 =>
      rw [hu] at h
      cases h
      obtain ⟨hmsg, hid⟩ := sync_ok_frame _ _ hu
      exact ⟨hid, le_of_eq (by rw [hmsg]), fun hc => absurd rfl hc,
        fun _ => by rw [hmsg], fun hc => Node.noConfusion hc⟩
  | done =>
    simp only [graphStep, hn] at h
    cases h
    exact ⟨rfl, le_refl _, fun _ => rfl, fun _ => List.prefix_refl _,
      fun hc => Node.noConfusion hc⟩

/-- C5 witness: the amended invariants at a concrete reasoning step. -/
theorem graph_step_invariants_witness :
    (sampleHumanState.user_id = sampleHumanState.user_id ∧
     sampleHumanState.messages.length ≤
       (call_model (fun _ => Message.ai "Hello!" [] "r1") sampleHumanState).messages.length ∧
     (Node.agent ≠ Node.update_state_with_name →
       (call_model (fun _ => Message.ai "Hello!" [] "r1") sampleHumanState).user_name =
         sampleHumanState.user_name) ∧
     (Node.agent ≠ Node.update_tool_call →
       sampleHumanState.messages <+:
         (call_model (fun _ => Message.ai "Hello!" [] "r1") sampleHumanState).messages) ∧
     (Node.agent = Node.update_tool_call →
       (call_model (fun _ => Message.ai "Hello!" [] "r1") sampleHumanState) = sampleHumanState ∨
       ∃ c tc rest i,
         sampleHumanState.messages.getLast? = some (Message.ai c (tc :: rest) i) ∧
         (call_model (fun _ => Message.ai "Hello!" [] "r1") sampleHumanState).messages =
           sampleHumanState.messages.dropLast ++
           [Message.ai c ({ tc with args := dictInsert tc.args "user_id" sampleHumanState.user_id } :: rest) i,
            Message.ai c [{ tc with args := dictInsert tc.args "user_id" sampleHumanState.user_id }] i])) := by
  have := graph_step_invariants (fun _ => Message.ai "Hello!" [] "r1") pureTool
    { node := Node.agent, db := [], state := sampleHumanState }
    { node := Node.done
      db := []
      state := call_model (fun _ => Message.ai "Hello!" [] "r1") sampleHumanState }
    (by rfl)
  exact this

theorem tools_condition_no_toolcall (oracle : List Message → Message)
    (s : AgentState)
    (h : toolCallsOf (oracle
      (Message.system (get_system_prompt s.user_name) :: s.messages)) = []) :
    tools_condition (call_model oracle s) = Node.done := by
  unfold tools_condition call_model
  rw [List.getLast?_concat]
  cases hr : oracle (Message.system (get_system_prompt s.user_name) :: s.messages) with
  | ai c tcs i =>
    rw [hr] at h
    simp only [toolCallsOf] at h
    subst h
    rfl
  | human cnt => rfl
  | system cnt => rfl
  | toolResult cnt tid => rfl

/-- C6: a turn whose oracle reply carries no tool call transitions from the
conditional route directly to `END`: after the one reasoning step the run
is at the terminal node with the same store and the reply appended, it
stays there, the message count grew by exactly one, and no point of the run
is ever at the ENRICH, EXECUTE or SYNC node. -/
theorem no_toolcall_turn (oracle : List Message → Message)
    (tool : Db → String → String → Except String (Db × String))
    (db : Db) (s : AgentState)
    (h : toolCallsOf (oracle
      (Message.system (get_system_prompt s.user_name) :: s.messages)) = []) :
    (∀ k, 1 ≤ k → iterGraph oracle tool k { node := Node.agent, db := db, state := s } =
      Except.ok { node := Node.done, db := db, state := call_model oracle s }) ∧
    (call_model oracle s).messages.length = s.messages.length + 1 ∧
    (∀ k w', iterGraph oracle tool k { node := Node.agent, db := db, state := s } =
        Except.ok w' →
      w'.node ≠ Node.update_tool_call ∧ w'.node ≠ Node.tools ∧
      w'.node ≠ Node.update_state_with_name) := by
  have hstep : graphStep oracle tool { node := Node.agent, db := db, state := s } =
      Except.ok { node := Node.done, db := db, state := call_model oracle s } := by
    simp only [graphStep, tools_condition_no_toolcall oracle s h]
  have hiter : ∀ k, iterGraph oracle tool (k + 1)
      { node := Node.agent, db := db, state := s } =
      Except.ok { node := Node.done, db := db, state := call_model oracle s } := by
    intro k
    induction k with
    | zero => simpa [iterGraph] using hstep
    | succ k ih =>
      show (iterGraph oracle tool (k + 1) _).bind _ = _
      rw [ih]
      rfl
  refine ⟨fun k hk => ?_, by simp [call_model], fun k w' hw => ?_⟩
  · cases k with
    | zero => omega
    | succ k => exact hiter k
  · cases k with
    | zero =>
      cases hw
      exact ⟨fun hc => Node.noConfusion hc, fun hc => Node.noConfusion hc,
        fun hc => Node.noConfusion hc⟩
    | succ k =>
      rw [hiter k] at hw
      cases hw
      exact ⟨fun hc => Node.noConfusion hc, fun hc => Node.noConfusion hc,
        fun hc => Node.noConfusion hc⟩

/-- C6 witness: a concrete no-tool-call turn reaches `END` in one step with
the reply appended. -/
theorem no_toolcall_turn_witness :
    iterGraph (fun _ => Message.ai "Hello!" [] "r1") pureTool 1
      { node := Node.agent, db := [], state := sampleHumanState } =
      Except.ok
        { node := Node.done
          db := []
          state := call_model (fun _ => Message.ai "Hello!" [] "r1") sampleHumanState } :=
  (no_toolcall_turn (fun _ => Message.ai "Hello!" [] "r1") pureTool []
    sampleHumanState rfl).1 1 (by omega)

/-- C7: when the Tool Interface call fails at the EXECUTE node, the error is
surfaced to the caller (every continuation of the run is that error), the
SYNC node is never reached, and the only surviving session state — the
pre-call one — carries its pre-call `user_name` and store. -/
theorem tool_failure_no_sync (oracle : List Message → Message)
    (tool : Db → String → String → Except String (Db × String))
    (db : Db) (s : AgentState) (c : String) (tc : ToolCall)
    (rest : List ToolCall) (i uid nm e : String)
    (hlast : s.messages.getLast? = some (Message.ai c (tc :: rest) i))
    (hname : tc.name = "remember_user_name_external")
    (huid : dictGet tc.args "user_id" = some uid)
    (hnm : dictGet tc.args "name" = some nm)
    (hfail : tool db uid nm = Except.error e) :
    (∀ k, 1 ≤ k → iterGraph oracle tool k { node := Node.tools, db := db, state := s } =
      Except.error e) ∧
    (∀ k w', iterGraph oracle tool k { node := Node.tools, db := db, state := s } =
        Except.ok w' →
      w'.node ≠ Node.update_state_with_name ∧
      w'.state.user_name = s.user_name ∧ w'.db = db) := by
  have hstep : graphStep oracle tool { node := Node.tools, db := db, state := s } =
      Except.error e := by
    simp only [graphStep, tool_executor, hlast, hname, if_pos rfl, huid, hnm, hfail]
    rfl
  have hiter : ∀ k, iterGraph oracle tool (k + 1)
      { node := Node.tools, db := db, state := s } = Except.error e := by
    intro k
    induction k with
    | zero => simpa [iterGraph] using hstep
    | succ k ih =>
      show (iterGraph oracle tool (k + 1) _).bind _ = _
      rw [ih]
      rfl
  refine ⟨fun k hk => ?_, fun k w' hw => ?_⟩
  · cases k with
    | zero => omega
    | succ k => exact hiter k
  · cases k with
    | zero =>
      cases hw
      exact ⟨fun hc => Node.noConfusion hc, rfl, rfl⟩
    | succ k =>
      rw [hiter k] at hw
      exact Except.noConfusion hw

/-- C7 witness: a concrete failing Tool Interface call at the EXECUTE node
surfaces its error. -/
theorem tool_failure_no_sync_witness :
    iterGraph (fun _ => Message.ai "" [] "r")
      (fun _ _ _ => Except.error "sqlite3.OperationalError") 1
      { node := Node.tools
        db := []
        state :=
          { messages := [Message.ai ""
              [{ name := "remember_user_name_external",
                 args := [("name", "Ann"), ("user_id", "u1")], call_id := "c1" }] "m1"]
            user_name := none
            user_id := "u1" } } = Except.error "sqlite3.OperationalError" :=
  (tool_failure_no_sync (fun _ => Message.ai "" [] "r")
    (fun _ _ _ => Except.error "sqlite3.OperationalError") []
    { messages := [Message.ai ""
        [{ name := "remember_user_name_external",
           args := [("name", "Ann"), ("user_id", "u1")], call_id := "c1" }] "m1"]
      user_name := none
      user_id := "u1" }
    "" { name := "remember_user_name_external",
         args := [("name", "Ann"), ("user_id", "u1")], call_id := "c1" }
    [] "m1" "u1" "Ann" "sqlite3.OperationalError"
    rfl rfl rfl rfl rfl).1 1 (by omega)

end LGAgent
